import Mathlib

/-!
Shallow embedding of the event-timeline classifier and notification scheduler
of the rpi-google-calendar application, together with proofs of the
specification's testable properties.

Times are modelled as `Int` seconds (instants in the fixed target time zone);
the Python `datetime` arithmetic used by the source is plain instant
comparison and addition of fixed durations, so this is faithful.  Python
exceptions are modelled by `Option`/`Except` returns: a function that the
source wraps in a catch-all handler is embedded as a total Lean function.
-/

namespace RpiCal

/-- `MAX_EVENTS_DISPLAY` from `config/settings.py`. -/
def MAX_EVENTS_DISPLAY : Nat := 5

/-- `WARNING_MINUTES` from `config/settings.py`. -/
def WARNING_MINUTES : Int := 10

/-- One hour in seconds (`timedelta(hours=1)`). -/
def HOUR : Int := 3600

/-- A simplified calendar entry as returned by
`GoogleCalendarAuth.get_calendar_list` (`google_auth.py`, lines 119-127):
`id`, `summary` and `backgroundColor` are always present there (the getter
defaults `backgroundColor` to `"#ffffff"`). -/
structure Calendar where
  id : String
  summary : String
  backgroundColor : String
deriving DecidableEq, Repr

/-- The value found under `start`/`end` of a raw Google event after
`(...).get('dateTime', (...).get('date'))`, classified by how
`CalendarService._process_event` treats the string:
`timed t` is a string containing `'T'` that parses to the instant `t`
(already converted to the target time zone); `dateStr d` is a string
without `'T'` that parses as `%Y-%m-%d` to local midnight `d`;
`badTimed` is a string containing `'T'` that fails to parse
(raises, so the event is discarded); `badDate` is a string without `'T'`
that is not a bare date (for the start field `strptime` raises; for the
end field the string is never parsed and the default applies). -/
inductive RawTimeStr where
  | timed (t : Int)
  | dateStr (d : Int)
  | badTimed
  | badDate
deriving DecidableEq, Repr

/-- A raw event record from the Gateway, restricted to the fields
`_process_event` consumes.  The outer `Option` on `start`/`end_` models
presence of the dictionary key (`event['start']` raises `KeyError` when
absent); the inner `Option` models `.get('dateTime', .get('date'))`
returning `None` (or an empty, falsy string). -/
structure RawEvent where
  id : Option String
  summary : Option String
  description : Option String
  location : Option String
  start : Option (Option RawTimeStr)
  end_ : Option (Option RawTimeStr)
deriving DecidableEq, Repr

/-- A processed event dict as built by `CalendarService._process_event`
(the display-only `formatted_time` field is not needed by any claim and
is omitted). -/
structure Event where
  id : String
  title : String
  description : String
  location : String
  start_datetime : Int
  end_datetime : Int
  is_all_day : Bool
  calendar_name : String
  calendar_color : String
  status : String
deriving DecidableEq, Repr

/-- `CalendarService._get_event_status` (`calendar_service.py`, lines 145-156). -/
def get_event_status (now start_dt end_dt : Int) : String :=
  if now < start_dt then "upcoming"
  else if start_dt ≤ now ∧ now ≤ end_dt then "current"
  else "past"

/-- `CalendarService._process_event` (`calendar_service.py`, lines 89-143).
Returns `none` where the Python returns `None`, including every path on
which the Python body raises into the enclosing `except` handler
(missing `start` or `end` key, falsy start value, unparseable start,
unparseable timed end, missing `id` key). -/
def process_event (now : Int) (event : RawEvent) (calendar : Calendar) :
    Option Event :=
  match event.start with
  | none => none
  | some none => none
  | some (some st) =>
    let parsedStart : Option (Int × Bool) :=
      match st with
      | .timed t => some (t, false)
      | .dateStr d => some (d, true)
      | .badTimed => none
      | .badDate => none
    match parsedStart with
    | none => none
    | some (start_dt, is_all_day) =>
      match event.end_ with
      | none => none
      | some endVal =>
        let parsedEnd : Option Int :=
          match endVal with
          | some (.timed t) => some t
          | some .badTimed => none
          | some (.dateStr _) => some (start_dt + HOUR)
          | some .badDate => some (start_dt + HOUR)
          | none => some (start_dt + HOUR)
        match parsedEnd with
        | none => none
        | some end_dt =>
          match event.id with
          | none => none
          | some eid =>
            some {
              id := eid
              title := event.summary.getD "No Title"
              description := event.description.getD ""
              location := event.location.getD ""
              start_datetime := start_dt
              end_datetime := end_dt
              is_all_day := is_all_day
              calendar_name := calendar.summary
              calendar_color := calendar.backgroundColor
              status := get_event_status now start_dt end_dt }

/-- The per-event status recomputation performed by
`CalendarDisplayWindow.update_event_statuses` (`main_window.py`,
lines 314-326): the same three-way classification, re-applied in place
on every status tick. -/
def update_event_statuses (now : Int) (events : List Event) : List Event :=
  events.map fun event =>
    { event with
      status :=
        if now < event.start_datetime then "upcoming"
        else if event.start_datetime ≤ now ∧ now ≤ event.end_datetime then
          "current"
        else "past" }

/-- The outcome of `service.events().list(...).execute()` for one calendar:
`.ok raws` on success, `.error ()` when the call raises `HttpError`
(caught per-calendar at `calendar_service.py` lines 71-73). -/
abbrev FetchResult := Except Unit (List RawEvent)

/-- The environment of one refresh: whether `auth.get_service()` yields a
service (`false` models the gateway being unreachable at the auth step),
the raw outcome of the `calendarList().list()` call (each calendar paired
with the outcome of its subsequent per-calendar event fetch), and the
wall-clock instant of the refresh. -/
structure Env where
  service : Bool
  listResult : Except Unit (List (Calendar × FetchResult))
  now : Int

/-- The mutable state of `CalendarService`: `self.events` and
`self.last_update`. -/
structure CalState where
  events : List Event
  last_update : Option Int
deriving DecidableEq, Repr

/-- The event-accumulation loop of `CalendarService.get_today_events`
(`calendar_service.py`, lines 51-73): for each calendar, on a fetch error
(`HttpError`) log and continue; on success append every successfully
processed event. -/
def collect_events (now : Int) (cals : List (Calendar × FetchResult)) :
    List Event :=
  cals.foldl
    (fun acc cf =>
      match cf.2 with
      | .error _ => acc
      | .ok raws => acc ++ raws.filterMap (fun r => process_event now r cf.1))
    []

/-- The sort key of `all_events.sort(key=lambda x: x['start_datetime'])`. -/
def le_start (a b : Event) : Prop :=
  a.start_datetime ≤ b.start_datetime

instance : DecidableRel le_start := fun x y => Int.decLe x.start_datetime y.start_datetime

instance : IsTotal Event le_start := ⟨fun x y => Int.le_total x.start_datetime y.start_datetime⟩

instance : IsTrans Event le_start := ⟨fun _ _ _ => Int.le_trans⟩

/-- `GoogleCalendarAuth.get_calendar_list` (`google_auth.py`, lines 105-133):
returns the fetched list, or the empty list when the underlying call
raises (the error is swallowed there, not propagated). -/
def get_calendar_list (service : Bool)
    (listResult : Except Unit (List (Calendar × FetchResult))) :
    List (Calendar × FetchResult) :=
  if service = false then []
  else
    match listResult with
    | .error _ => []
    | .ok l => l

/-- `CalendarService.get_today_events` (`calendar_service.py`, lines 26-87).
Returns the new state and the returned list.  All Python paths return a
list (the body is wrapped in a catch-all handler), so the embedding is a
total function; the early `return []` when no service is available leaves
the state untouched, while every path that reaches line 79 commits
`self.events` and `self.last_update`. -/
def get_today_events (env : Env) (s : CalState) : CalState × List Event :=
  if env.service = false then (s, [])
  else
    let calendars := get_calendar_list env.service env.listResult
    let all_events := collect_events env.now calendars
    let sorted := all_events.insertionSort le_start
    let events := sorted.take MAX_EVENTS_DISPLAY
    (⟨events, some env.now⟩, events)

/-- `CalendarService.refresh_events` (`calendar_service.py`, lines 224-234):
calls `get_today_events` and returns `True`; the `except` branch that
returns `False` is unreachable because `get_today_events` never raises
(it is total in this embedding for that reason). -/
def refresh_events (env : Env) (s : CalState) : CalState × Bool :=
  ((get_today_events env s).1, true)

/-- `CalendarService.get_events_needing_notification`
(`calendar_service.py`, lines 200-222): scans the stored events, skipping
those whose stored status is `past`; an event starting within the next
minute fires `start`, otherwise one inside the symmetric warning window
fires `warning`. -/
def get_events_needing_notification (warning_minutes now : Int)
    (events : List Event) : List (Event × String) :=
  events.foldl
    (fun acc event =>
      if event.status = "past" then acc
      else
        let time_to_start := event.start_datetime - now
        if 0 ≤ time_to_start ∧ time_to_start ≤ 60 then
          acc ++ [(event, "start")]
        else if warning_minutes * 60 - 60 ≤ time_to_start ∧
            time_to_start ≤ warning_minutes * 60 + 60 then
          acc ++ [(event, "warning")]
        else acc)
    []

/-- The per-event decision inside the scan loop of
`get_events_needing_notification`: the single kind (if any) fired for one
event, mirroring the `if`/`elif` chain of lines 208-220. -/
def fires (warning_minutes now : Int) (e : Event) : Option String :=
  if e.status = "past" then none
  else if 0 ≤ e.start_datetime - now ∧ e.start_datetime - now ≤ 60 then
    some "start"
  else if warning_minutes * 60 - 60 ≤ e.start_datetime - now ∧
      e.start_datetime - now ≤ warning_minutes * 60 + 60 then
    some "warning"
  else none

/-- A concrete processed event, used as prior Timeline content in
counterexamples. -/
def evA : Event :=
  ⟨"a", "A", "", "", 1000, 4600, false, "Work", "#ffffff", "upcoming"⟩

/-- A concrete upcoming event whose start is `ts` seconds after instant 0,
used to exercise the notification windows. -/
def evTTS (ts : Int) : Event :=
  ⟨"w", "W", "", "", ts, ts + HOUR, false, "Work", "#ffffff", "upcoming"⟩

/-- Calendars of the seven-event refresh example. -/
def calW : Calendar := ⟨"work", "Work", "#ffffff"⟩

def calP : Calendar := ⟨"personal", "Personal", "#00ff00"⟩

/-- A raw timed event with numeric id `i`, start `t` and end `t + 1800`. -/
def rawEv (i : Nat) (t : Int) : RawEvent :=
  ⟨some (toString i), some ("E" ++ toString i), none, none,
   some (some (.timed t)), some (some (.timed (t + 1800)))⟩

/-- Two calendars carrying seven raw events in scrambled start order. -/
def calsC6 : List (Calendar × FetchResult) :=
  [(calW, .ok [rawEv 1 1000, rawEv 2 7000, rawEv 3 3000, rawEv 4 5000]),
   (calP, .ok [rawEv 5 2000, rawEv 6 6000, rawEv 7 4000])]

/-- Refresh environment of the seven-event example. -/
def envC6 : Env := ⟨true, .ok calsC6, 0⟩

/-- A raw record with a timed 09:00 start and no `end` key at all:
`event['end']` raises `KeyError` in `_process_event`. -/
def rawNoEnd : RawEvent :=
  ⟨some "e", some "Morning", none, none, some (some (.timed 32400)), none⟩

/-- A calendar used in concrete normalization examples. -/
def calTest : Calendar := ⟨"cal", "Cal", "#ffffff"⟩

/-- A queued or active alert record at the UI scheduler
(`ui/notification_widget.py`, `NotificationManager.show_notification`):
the event payload, the notification type, and the arrival timestamp. -/
structure UINotification where
  event : Event
  ntype : String
  timestamp : Int
deriving DecidableEq, Repr

/-- State of the UI notification scheduler: what the overlay widget is
displaying (`is_showing()` is `showing.isSome`; within one synchronous
call chain a just-started fade-out still reports showing), the manager's
`current_notification`, and the FIFO `notification_queue`. -/
structure UISched where
  showing : Option UINotification
  current : Option UINotification
  queue : List UINotification
deriving DecidableEq, Repr

/-- `NotificationManager.show_notification`
(`ui/notification_widget.py`, lines 275-292): while the widget is
showing, append the new record to the queue unless a record with the
same `(event id, type)` identity is already queued; otherwise display it
immediately. -/
def ui_show_notification (now : Int) (event_data : Event) (ntype : String)
    (s : UISched) : UISched :=
  let n : UINotification := ⟨event_data, ntype, now⟩
  if s.showing.isSome then
    if s.queue.any (fun q => q.event.id == event_data.id && q.ntype == ntype)
    then s
    else ⟨s.showing, s.current, s.queue ++ [n]⟩
  else ⟨some n, some n, s.queue⟩

/-- `NotificationManager.process_queue`
(`ui/notification_widget.py`, lines 294-303): on the periodic drain tick,
if the widget is not showing and the queue is non-empty, pop the oldest
entry and display it. -/
def ui_process_queue (s : UISched) : UISched :=
  if s.showing.isNone then
    match s.queue with
    | [] => s
    | n :: rest => ⟨some n, some n, rest⟩
  else s

/-- Completion of a dismissal of the current overlay (DISMISS button,
click outside, Escape, or auto-dismiss timeout, followed by the fade-out
finishing and `on_notification_dismissed`): the widget stops showing and
`current_notification` is cleared; the queue is untouched. -/
def ui_dismiss (s : UISched) : UISched :=
  ⟨none, none, s.queue⟩

/-- The dedup key `f"{event['id']}_{notification_type}"` of
`NotificationManager.check_notifications`
(`services/notification_manager.py`, line 54). -/
def notifKey (e : Event) (ntype : String) : String :=
  e.id ++ "_" ++ ntype

/-- `NotificationManager._cleanup_old_notifications`
(`services/notification_manager.py`, lines 147-162): wholesale clear of
the cache once it holds more than 100 keys; the Bool reports whether a
clear happened. -/
def cleanup_old_notifications (cache : List String) : List String × Bool :=
  if 100 < cache.length then ([], true) else (cache, false)

/-- Combined session state: the services-layer DedupCache
(`shown_notifications`, a set modelled as a duplicate-free list), the UI
scheduler state, a flag recording whether the cache was ever wholesale
cleared, and the log of every key fired so far (one entry per
`show_event_notification` call). -/
structure SysState where
  cache : List String
  sched : UISched
  cleared : Bool
  log : List String
deriving DecidableEq, Repr

/-- One iteration of the loop of
`NotificationManager.check_notifications`
(`services/notification_manager.py`, lines 53-67) on a fired pair: a key
already in the cache is skipped silently; otherwise the notification is
shown (`show_event_notification` emits the signal that reaches
`ui_show_notification`; the widget keeps reporting showing throughout
this synchronous chain even when a fade-out was just requested), the key
is added to the cache, and the cleanup runs. -/
def check_notification_step (now : Int) (s : SysState) (p : Event × String) :
    SysState :=
  let key := notifKey p.1 p.2
  if key ∈ s.cache then s
  else
    let sched := ui_show_notification now p.1 p.2 s.sched
    let cu := cleanup_old_notifications (s.cache ++ [key])
    ⟨cu.1, sched, s.cleared || cu.2, s.log ++ [key]⟩

/-- A full `check_notifications` scan at instant `now` over the Timeline
`events`. -/
def check_notifications (warning_minutes now : Int) (events : List Event)
    (s : SysState) : SysState :=
  (get_events_needing_notification warning_minutes now events).foldl
    (check_notification_step now) s

/-- One atomic activation of the single-threaded reactor: a rule-check
scan, a backlog-drain tick, or the completion of a dismissal. -/
inductive Act where
  | scan (now : Int) (events : List Event)
  | drain
  | dismiss
deriving DecidableEq, Repr

/-- Step of the combined session machine. -/
def sys_step (warning_minutes : Int) (s : SysState) : Act → SysState
  | .scan now events => check_notifications warning_minutes now events s
  | .drain => ⟨s.cache, ui_process_queue s.sched, s.cleared, s.log⟩
  | .dismiss => ⟨s.cache, ui_dismiss s.sched, s.cleared, s.log⟩

/-- Run a session trace from a state. -/
def sys_run (warning_minutes : Int) (s : SysState) (acts : List Act) :
    SysState :=
  acts.foldl (sys_step warning_minutes) s

/-- The initial session state: empty cache, idle scheduler, no clear yet,
empty log. -/
def sys_init : SysState := ⟨[], ⟨none, none, []⟩, false, []⟩

/-- The backlog never holds two records with the same (eventId, kind)
identity. -/
def QueueDistinct (s : UISched) : Prop :=
  List.Pairwise
    (fun a b : UINotification =>
      ¬(a.event.id = b.event.id ∧ a.ntype = b.ntype)) s.queue

/-- Filler event with numeric id `i`, starting 30 s after instant `t`. -/
def fillerEvent (i : Nat) (t : Int) : Event :=
  ⟨toString i, "F", "", "", t + 30, t + 3630, false, "Work", "#ffffff",
    "upcoming"⟩

/-- Event `a` as fetched in the first refresh: starts at instant 1045. -/
def evA1 : Event :=
  ⟨"a", "A", "", "", 1045, 4645, false, "Work", "#ffffff", "upcoming"⟩

/-- Event `a` as re-fetched later in the session after being rescheduled
to a new slot: same id, start at instant 23030. -/
def evA2 : Event :=
  ⟨"a", "A", "", "", 23030, 26630, false, "Work", "#ffffff", "upcoming"⟩

/-- Twenty intermediate scans, 30 s apart, each seeing a fresh batch of
five just-refreshed events (ids 1..100), every one inside the start
window of its scan instant. -/
def fillerScans : List Act :=
  (List.range 20).map fun (j : Nat) =>
    .scan (2000 + 30 * (j : Int))
      [fillerEvent (5 * j + 1) (2000 + 30 * (j : Int)),
       fillerEvent (5 * j + 2) (2000 + 30 * (j : Int)),
       fillerEvent (5 * j + 3) (2000 + 30 * (j : Int)),
       fillerEvent (5 * j + 4) (2000 + 30 * (j : Int)),
       fillerEvent (5 * j + 5) (2000 + 30 * (j : Int))]

/-- A session trace: event `a` fires start at the first scan and becomes
the active alert; it is never dismissed while 100 fresh pairs fire and
queue up across twenty scans, pushing the DedupCache past its 100-entry
ceiling so that it is wholesale cleared; a final scan sees the
rescheduled event `a`, whose (a, start) pair fires again. -/
def refireTrace : List Act :=
  .scan 1000 [evA1] :: fillerScans ++ [.scan 23000 [evA2]]

end RpiCal

namespace RpiCal

/-- Folding the accumulation loop of `collect_events` from an arbitrary
accumulator prepends that accumulator to the result. -/
theorem collect_events_foldl (now : Int)
    (cals : List (Calendar × FetchResult)) (acc : List Event) :
    cals.foldl
      (fun acc cf =>
        match cf.2 with
        | .error _ => acc
        | .ok raws =>
          acc ++ raws.filterMap (fun r => process_event now r cf.1))
      acc
    = acc ++ collect_events now cals := by
  induction cals generalizing acc with
  | nil => simp [collect_events]
  | cons c l ih =>
    match h : c.2 with
    | .error u =>
      simp only [collect_events, List.foldl_cons, h]
      exact ih acc
    | .ok raws =>
      simp only [collect_events, List.foldl_cons, h]
      rw [ih, ih]
      simp

/-- `collect_events` over one calendar entry prepends that calendar's
processed events (or nothing on a fetch error). -/
theorem collect_events_cons (now : Int) (c : Calendar × FetchResult)
    (l : List (Calendar × FetchResult)) :
    collect_events now (c :: l) =
      (match c.2 with
        | .error _ => ([] : List Event)
        | .ok raws => raws.filterMap (fun r => process_event now r c.1)) ++
      collect_events now l := by
  show List.foldl _ _ (c :: l) = _
  rw [List.foldl_cons, collect_events_foldl]
  match h : c.2 with
  | .error u => simp [h]
  | .ok raws => simp [h]

/-- `collect_events` distributes over calendar-list concatenation. -/
theorem collect_events_append (now : Int)
    (l₁ l₂ : List (Calendar × FetchResult)) :
    collect_events now (l₁ ++ l₂) =
      collect_events now l₁ ++ collect_events now l₂ := by
  induction l₁ with
  | nil => simp [collect_events]
  | cons c l ih =>
    rw [List.cons_append, collect_events_cons, collect_events_cons, ih,
      List.append_assoc]

/-- The per-event step of the scan loop, written through `fires`. -/
theorem needing_step (warning_minutes now : Int)
    (acc : List (Event × String)) (e : Event) :
    (if e.status = "past" then acc
     else if 0 ≤ e.start_datetime - now ∧ e.start_datetime - now ≤ 60 then
       acc ++ [(e, "start")]
     else if warning_minutes * 60 - 60 ≤ e.start_datetime - now ∧
         e.start_datetime - now ≤ warning_minutes * 60 + 60 then
       acc ++ [(e, "warning")]
     else acc)
    = acc ++ ((fires warning_minutes now e).map fun k => (e, k)).toList := by
  unfold fires
  by_cases h1 : e.status = "past"
  · rw [if_pos h1, if_pos h1]
    simp
  · rw [if_neg h1, if_neg h1]
    by_cases h2 : 0 ≤ e.start_datetime - now ∧ e.start_datetime - now ≤ 60
    · rw [if_pos h2, if_pos h2]
      simp
    · rw [if_neg h2, if_neg h2]
      by_cases h3 : warning_minutes * 60 - 60 ≤ e.start_datetime - now ∧
          e.start_datetime - now ≤ warning_minutes * 60 + 60
      · rw [if_pos h3, if_pos h3]
        simp
      · rw [if_neg h3, if_neg h3]
        simp

/-- The scan of `get_events_needing_notification` emits, in Timeline
order, the pair `(e, k)` for each event whose per-event decision is
`fires ... = some k`. -/
theorem needing_eq_filterMap (warning_minutes now : Int)
    (events : List Event) :
    get_events_needing_notification warning_minutes now events =
      events.filterMap (fun e =>
        (fires warning_minutes now e).map fun k => (e, k)) := by
  suffices h : ∀ (acc : List (Event × String)),
      events.foldl
        (fun acc event =>
          if event.status = "past" then acc
          else
            let time_to_start := event.start_datetime - now
            if 0 ≤ time_to_start ∧ time_to_start ≤ 60 then
              acc ++ [(event, "start")]
            else if warning_minutes * 60 - 60 ≤ time_to_start ∧
                time_to_start ≤ warning_minutes * 60 + 60 then
              acc ++ [(event, "warning")]
            else acc)
        acc
      = acc ++ events.filterMap (fun e =>
          (fires warning_minutes now e).map fun k => (e, k)) by
    simpa [get_events_needing_notification] using h []
  induction events with
  | nil => intro acc; simp
  | cons e l ih =>
    intro acc
    rw [List.foldl_cons, ih, List.filterMap_cons]
    simp only []
    rw [needing_step]
    cases hf : fires warning_minutes now e <;> simp [hf]

end RpiCal

namespace RpiCal

/-- C1: for every clock value `now` and bounds `start ≤ end`, the derived
status is `current` iff `start ≤ now ≤ end` (both inclusive), `upcoming`
iff `now < start`, and `past` otherwise; `now = start` and `now = end`
both yield `current`; and both the status stored at normalization time
(`_process_event`) and the status recomputed on a status tick
(`update_event_statuses`) are exactly this function of the clock. -/
theorem status_derivation_correct (now start_dt end_dt : Int) :
    (get_event_status now start_dt end_dt = "current" ↔
      start_dt ≤ now ∧ now ≤ end_dt) ∧
    (get_event_status now start_dt end_dt = "upcoming" ↔ now < start_dt) ∧
    (get_event_status now start_dt end_dt = "past" ↔
      ¬ now < start_dt ∧ ¬ (start_dt ≤ now ∧ now ≤ end_dt)) ∧
    (start_dt ≤ end_dt →
      get_event_status start_dt start_dt end_dt = "current" ∧
      get_event_status end_dt start_dt end_dt = "current") ∧
    (∀ (raw : RawEvent) (cal : Calendar) (ev : Event),
      process_event now raw cal = some ev →
      ev.status = get_event_status now ev.start_datetime ev.end_datetime) ∧
    (∀ (events : List Event) (ev : Event),
      ev ∈ update_event_statuses now events →
      ev.status = get_event_status now ev.start_datetime ev.end_datetime) := by
  refine ⟨?_, ?_, ?_, ?_, ?_, ?_⟩
  · unfold get_event_status
    split
    · constructor
      · intro h; simp at h
      · intro ⟨h1, _⟩; omega
    · split
      · simp_all
      · constructor
        · intro h; simp at h
        · intro h; simp_all
  · unfold get_event_status
    split
    · simp_all
    · split
      · constructor
        · intro h; simp at h
        · intro h; omega
      · constructor
        · intro h; simp at h
        · intro h; omega
  · unfold get_event_status
    split
    · constructor
      · intro h; simp at h
      · intro ⟨h1, _⟩; omega
    · split
      · constructor
        · intro h; simp at h
        · intro ⟨_, h2⟩; simp_all
      · simp_all
  · intro h
    constructor
    · unfold get_event_status
      split
      · omega
      · split
        · rfl
        · omega
    · unfold get_event_status
      split
      · omega
      · split
        · rfl
        · omega
  · intro raw cal ev h
    unfold process_event at h
    repeat' split at h
    all_goals simp_all
    all_goals (subst h; rfl)
  · intro events ev h
    unfold update_event_statuses at h
    simp only [List.mem_map] at h
    obtain ⟨e, _, rfl⟩ := h
    unfold get_event_status
    rfl

/-- Witness for C1 at `start = 100`, `end = 200`: at `now = 100` and
`now = 200` the status is `current`. -/
theorem status_derivation_correct_witness :
    get_event_status 100 100 200 = "current" ∧
    get_event_status 200 100 200 = "current" :=
  (status_derivation_correct 100 100 200).2.2.2.1 (by decide)

end RpiCal

namespace RpiCal

/-- C9: during a refresh, a per-calendar fetch error and a malformed raw
record are each contained to their own unit: a calendar whose fetch fails
contributes nothing but leaves every sibling calendar's contribution
intact (the refresh result equals the one with that calendar absent), a
record that fails to normalize is dropped while its sibling records are
still processed, and the cycle as a whole is aborted only by a gateway
failure at the get-service step (empty result, state untouched) or a
failing calendar-list fetch (empty result). -/
theorem refresh_error_containment (now : Int) (s : CalState)
    (pre post : List (Calendar × FetchResult)) (c : Calendar) :
    (get_today_events ⟨true, .ok (pre ++ [(c, .error ())] ++ post), now⟩ s =
      get_today_events ⟨true, .ok (pre ++ post), now⟩ s) ∧
    (∀ (raws1 raws2 : List RawEvent) (r : RawEvent),
      process_event now r c = none →
      get_today_events
          ⟨true, .ok (pre ++ [(c, .ok (raws1 ++ r :: raws2))] ++ post), now⟩
          s =
        get_today_events
          ⟨true, .ok (pre ++ [(c, .ok (raws1 ++ raws2))] ++ post), now⟩ s) ∧
    (∀ env : Env, env.service = false → get_today_events env s = (s, [])) ∧
    (∀ u : Unit,
      get_today_events ⟨true, .error u, now⟩ s = (⟨[], some now⟩, [])) := by
  have hok : ∀ l : List (Calendar × FetchResult),
      get_today_events ⟨true, .ok l, now⟩ s =
        (⟨((collect_events now l).insertionSort le_start).take
            MAX_EVENTS_DISPLAY, some now⟩,
          ((collect_events now l).insertionSort le_start).take
            MAX_EVENTS_DISPLAY) := by
    intro l
    rfl
  refine ⟨?_, ?_, ?_, ?_⟩
  · rw [hok, hok]
    have hc : collect_events now (pre ++ [(c, .error ())] ++ post) =
        collect_events now (pre ++ post) := by
      rw [collect_events_append, collect_events_append,
        collect_events_append, collect_events_cons]
      simp [collect_events]
    rw [hc]
  · intro raws1 raws2 r hr
    rw [hok, hok]
    have hc : collect_events now (pre ++ [(c, .ok (raws1 ++ r :: raws2))] ++ post) =
        collect_events now (pre ++ [(c, .ok (raws1 ++ raws2))] ++ post) := by
      rw [collect_events_append, collect_events_append,
        collect_events_append, collect_events_append,
        collect_events_cons, collect_events_cons]
      simp only [List.filterMap_append, List.filterMap_cons, hr]
    rw [hc]
  · intro env h
    simp [get_today_events, h]
  · intro u
    rfl

/-- Witness for C9: one failing calendar beside one succeeding calendar is
equivalent to its absence, and one malformed record beside one good
record is equivalent to its absence. -/
theorem refresh_error_containment_witness :
    (get_today_events
        ⟨true, .ok ([(calW, .ok [rawEv 1 1000])] ++ [(calP, .error ())] ++ []),
          0⟩ ⟨[], none⟩ =
      get_today_events ⟨true, .ok ([(calW, .ok [rawEv 1 1000])] ++ []), 0⟩
        ⟨[], none⟩) ∧
    (get_today_events
        ⟨true, .ok ([] ++ [(calW, .ok ([] ++ rawNoEnd :: [rawEv 1 1000]))] ++ []),
          0⟩ ⟨[], none⟩ =
      get_today_events
        ⟨true, .ok ([] ++ [(calW, .ok ([] ++ [rawEv 1 1000]))] ++ []), 0⟩
        ⟨[], none⟩) :=
  ⟨(refresh_error_containment 0 ⟨[], none⟩ [(calW, .ok [rawEv 1 1000])] []
      calP).1,
   (refresh_error_containment 0 ⟨[], none⟩ [] [] calW).2.1 [] [rawEv 1 1000]
      rawNoEnd rfl⟩

/-- C3 counterexample: with prior Timeline contents `[evA]` and
`last_update = 100`, a refresh whose calendar-list fetch fails returns
the empty list but REPLACES the stored event sequence with `[]` and bumps
`last_update` to the refresh instant — the pre-call contents are not
preserved, contrary to the claim. -/
theorem refresh_list_failure_clobbers_state :
    get_today_events ⟨true, .error (), 500⟩ ⟨[evA], some 100⟩ =
      (⟨[], some 500⟩, []) ∧
    (get_today_events ⟨true, .error (), 500⟩ ⟨[evA], some 100⟩).1.events ≠
      (CalState.mk [evA] (some 100)).events ∧
    (get_today_events ⟨true, .error (), 500⟩ ⟨[evA], some 100⟩).1.last_update ≠
      (CalState.mk [evA] (some 100)).last_update :=
  ⟨rfl, by decide, by decide⟩

/-- C3 amended: a refresh finding the gateway unreachable at the
get-service step returns an empty result and leaves `events` and
`last_update` unchanged, and no exception escapes (the embedding is
total); but a refresh whose calendar-list fetch fails returns an empty
result while REPLACING the stored events with the empty list and setting
`last_update` to the refresh instant. -/
theorem refresh_failure_behavior (env : Env) (s : CalState) (now : Int)
    (u : Unit) :
    (env.service = false → get_today_events env s = (s, [])) ∧
    get_today_events ⟨true, .error u, now⟩ s = (⟨[], some now⟩, []) := by
  constructor
  · intro h
    simp [get_today_events, h]
  · rfl

/-- Witness for C3 amended: with no service, the prior state survives. -/
theorem refresh_failure_behavior_witness :
    get_today_events ⟨false, .error (), 0⟩ ⟨[evA], some 100⟩ =
      (⟨[evA], some 100⟩, []) :=
  (refresh_failure_behavior ⟨false, .error (), 0⟩ ⟨[evA], some 100⟩ 0 ()).1 rfl

/-- C10: `refresh_events` returns `True` on every execution, including
when the underlying fetch fails entirely, because `get_today_events`
catches every exception internally (it is a total function here for that
reason) and the `False` branch is unreachable; the return value cannot
distinguish success from total failure. -/
theorem refresh_events_always_true :
    (∀ (env : Env) (s : CalState), (refresh_events env s).2 = true) ∧
    (∀ (env₁ : Env) (s₁ : CalState) (env₂ : Env) (s₂ : CalState),
      (refresh_events env₁ s₁).2 = (refresh_events env₂ s₂).2) ∧
    get_today_events ⟨false, .error (), 0⟩ ⟨[], none⟩ = (⟨[], none⟩, []) ∧
    (refresh_events ⟨false, .error (), 0⟩ ⟨[], none⟩).2 = true :=
  ⟨fun _ _ => rfl, fun _ _ _ _ => rfl, rfl, rfl⟩

end RpiCal

namespace RpiCal

/-- C6: for every refresh with an available service and a fetched calendar
list, the resulting Timeline sequence is exactly the accumulated
normalized events sorted by start ascending and truncated to the
configured maximum; the kept sequence is sorted, its length is the
minimum of the maximum and the total, and together with the dropped
suffix it is a permutation of the accumulated events in which every kept
event starts no later than every dropped one (the latest-starting events
are dropped, never arbitrary ones). -/
theorem timeline_sorted_truncated (env : Env) (s : CalState)
    (cals : List (Calendar × FetchResult))
    (hserv : env.service = true) (hlist : env.listResult = .ok cals) :
    (get_today_events env s).2 = (get_today_events env s).1.events ∧
    (get_today_events env s).1.events =
      ((collect_events env.now cals).insertionSort le_start).take
        MAX_EVENTS_DISPLAY ∧
    List.Pairwise (fun a b => a.start_datetime ≤ b.start_datetime)
      (get_today_events env s).1.events ∧
    (get_today_events env s).1.events.length =
      min MAX_EVENTS_DISPLAY (collect_events env.now cals).length ∧
    ∃ dropped : List Event,
      ((get_today_events env s).1.events ++ dropped).Perm
        (collect_events env.now cals) ∧
      ∀ x ∈ (get_today_events env s).1.events, ∀ y ∈ dropped,
        x.start_datetime ≤ y.start_datetime := by
  have hget : get_today_events env s =
      (⟨((collect_events env.now cals).insertionSort le_start).take
          MAX_EVENTS_DISPLAY, some env.now⟩,
        ((collect_events env.now cals).insertionSort le_start).take
          MAX_EVENTS_DISPLAY) := by
    simp [get_today_events, get_calendar_list, hserv, hlist]
  have hsorted : List.Pairwise le_start
      ((collect_events env.now cals).insertionSort le_start) :=
    List.sorted_insertionSort le_start (collect_events env.now cals)
  have hperm := List.perm_insertionSort le_start (collect_events env.now cals)
  rw [hget]
  refine ⟨rfl, rfl, ?_, ?_, ?_⟩
  · exact List.Pairwise.sublist
      (List.take_sublist MAX_EVENTS_DISPLAY _) hsorted
  · rw [List.length_take, hperm.length_eq]
  · refine ⟨((collect_events env.now cals).insertionSort le_start).drop
      MAX_EVENTS_DISPLAY, ?_, ?_⟩
    · rw [List.take_append_drop]
      exact hperm
    · have hsplit := List.pairwise_append.mp
        (by rw [List.take_append_drop]; exact hsorted :
          List.Pairwise le_start
            (((collect_events env.now cals).insertionSort le_start).take
                MAX_EVENTS_DISPLAY ++
              ((collect_events env.now cals).insertionSort le_start).drop
                MAX_EVENTS_DISPLAY))
      exact hsplit.2.2

/-- Witness for C6: the seven-event two-calendar example with
max-display 5 yields exactly the five earliest events in ascending start
order, dropping the two latest-starting (starts 6000 and 7000). -/
theorem timeline_sorted_truncated_witness :
    List.Pairwise (fun a b => a.start_datetime ≤ b.start_datetime)
      (get_today_events envC6 ⟨[], none⟩).1.events ∧
    (get_today_events envC6 ⟨[], none⟩).1.events.length =
      min MAX_EVENTS_DISPLAY (collect_events 0 calsC6).length ∧
    (get_today_events envC6 ⟨[], none⟩).1.events.map
      (fun e => e.start_datetime) = [1000, 2000, 3000, 4000, 5000] := by
  refine ⟨(timeline_sorted_truncated envC6 ⟨[], none⟩ calsC6 rfl rfl).2.2.1,
    (timeline_sorted_truncated envC6 ⟨[], none⟩ calsC6 rfl rfl).2.2.2.1, ?_⟩
  decide

end RpiCal

namespace RpiCal

/-- C4: on a rule-check scan, for every Timeline event whose stored status
is not past and with `timeToStart = start - now` in seconds, kind start
fires exactly when `0 ≤ timeToStart ≤ 60`, and kind warning fires exactly
when `wm*60 - 60 ≤ timeToStart ≤ wm*60 + 60` (stated for every warning
lead time above two minutes, which keeps the two windows disjoint; the
configured value is 10).  Events with stored status past fire nothing. -/
theorem rule_engine_windows (wm now : Int) (events : List Event) (e : Event)
    (hwm : 2 < wm) (he : e ∈ events) (hstat : e.status ≠ "past") :
    ((e, "start") ∈ get_events_needing_notification wm now events ↔
      0 ≤ e.start_datetime - now ∧ e.start_datetime - now ≤ 60) ∧
    ((e, "warning") ∈ get_events_needing_notification wm now events ↔
      wm * 60 - 60 ≤ e.start_datetime - now ∧
        e.start_datetime - now ≤ wm * 60 + 60) ∧
    (∀ e2 ∈ events, e2.status = "past" →
      ∀ k : String,
        (e2, k) ∉ get_events_needing_notification wm now events) := by
  have hmem : ∀ p : Event × String,
      p ∈ get_events_needing_notification wm now events ↔
        ∃ x, x ∈ events ∧ (fires wm now x).map (fun k => (x, k)) = some p := by
    intro p
    rw [needing_eq_filterMap]
    exact List.mem_filterMap
  have hpair : ∀ k : String,
      ((e, k) ∈ get_events_needing_notification wm now events ↔
        fires wm now e = some k) := by
    intro k
    rw [hmem]
    constructor
    · rintro ⟨x, hx, hfx⟩
      cases hfk : fires wm now x with
      | none => rw [hfk] at hfx; simp at hfx
      | some k' =>
        rw [hfk] at hfx
        simp at hfx
        obtain ⟨rfl, rfl⟩ := hfx
        exact hfk
    · intro hf
      exact ⟨e, he, by rw [hf]; rfl⟩
  refine ⟨?_, ?_, ?_⟩
  · rw [hpair "start"]
    unfold fires
    rw [if_neg hstat]
    by_cases h2 : 0 ≤ e.start_datetime - now ∧ e.start_datetime - now ≤ 60
    · rw [if_pos h2]
      simp [h2]
    · rw [if_neg h2]
      constructor
      · intro h
        by_cases h3 : wm * 60 - 60 ≤ e.start_datetime - now ∧
            e.start_datetime - now ≤ wm * 60 + 60
        · rw [if_pos h3] at h
          simp at h
        · rw [if_neg h3] at h
          simp at h
      · intro h
        exact absurd h h2
  · rw [hpair "warning"]
    unfold fires
    rw [if_neg hstat]
    by_cases h2 : 0 ≤ e.start_datetime - now ∧ e.start_datetime - now ≤ 60
    · rw [if_pos h2]
      constructor
      · intro h
        simp at h
      · intro h3
        exfalso
        omega
    · rw [if_neg h2]
      by_cases h3 : wm * 60 - 60 ≤ e.start_datetime - now ∧
          e.start_datetime - now ≤ wm * 60 + 60
      · rw [if_pos h3]
        simp [h3]
      · rw [if_neg h3]
        constructor
        · intro h
          simp at h
        · intro h
          exact absurd h h3
  · intro e2 he2 hp k hcontra
    rw [hmem] at hcontra
    obtain ⟨x, hx, hfx⟩ := hcontra
    cases hfk : fires wm now x with
    | none => rw [hfk] at hfx; simp at hfx
    | some k' =>
      rw [hfk] at hfx
      simp at hfx
      obtain ⟨rfl, rfl⟩ := hfx
      unfold fires at hfk
      rw [if_pos hp] at hfk
      exact Option.noConfusion hfk

/-- Witness for C4 with the configured lead time 10: an event starting in
570 seconds (9.5 minutes) fires warning, one starting in 45 seconds fires
start, and one starting in 720 seconds (12 minutes) fires nothing. -/
theorem rule_engine_windows_witness :
    (evTTS 570, "warning") ∈ get_events_needing_notification 10 0 [evTTS 570] ∧
    (evTTS 45, "start") ∈ get_events_needing_notification 10 0 [evTTS 45] ∧
    (evTTS 720, "warning") ∉ get_events_needing_notification 10 0 [evTTS 720] ∧
    (evTTS 720, "start") ∉ get_events_needing_notification 10 0 [evTTS 720] := by
  refine ⟨?_, ?_, ?_, ?_⟩
  · exact (rule_engine_windows 10 0 [evTTS 570] (evTTS 570) (by decide)
      (by simp) (by decide)).2.1.mpr (by decide)
  · exact (rule_engine_windows 10 0 [evTTS 45] (evTTS 45) (by decide)
      (by simp) (by decide)).1.mpr (by decide)
  · intro h
    exact absurd ((rule_engine_windows 10 0 [evTTS 720] (evTTS 720) (by decide)
      (by simp) (by decide)).2.1.mp h) (by decide)
  · intro h
    exact absurd ((rule_engine_windows 10 0 [evTTS 720] (evTTS 720) (by decide)
      (by simp) (by decide)).1.mp h) (by decide)

end RpiCal

namespace RpiCal

/-- C7 amended: for every raw record carrying a parseable start and an
`end` object that holds no timed value (no value at all, a bare date, or
a non-timed unparseable string), normalization succeeds and yields
`end = start + 1 hour`; this applies uniformly, including to all-day
records whose end is a bare date.  A record lacking the `end` object
entirely, however, is discarded (the `event['end']` lookup raises), not
normalized with the default. -/
theorem default_end_one_hour (now sdt : Int) (ad : Bool)
    (raw : RawEvent) (cal : Calendar) (eid : String) (st : RawTimeStr)
    (hid : raw.id = some eid)
    (hstart : raw.start = some (some st))
    (hst : st = .timed sdt ∧ ad = false ∨ st = .dateStr sdt ∧ ad = true)
    (hend : raw.end_ = some none ∨ raw.end_ = some (some .badDate) ∨
      ∃ d : Int, raw.end_ = some (some (.dateStr d))) :
    (∃ ev : Event, process_event now raw cal = some ev ∧
      ev.start_datetime = sdt ∧ ev.end_datetime = sdt + HOUR ∧
      ev.is_all_day = ad) ∧
    (∀ raw2 : RawEvent, raw2.end_ = none →
      process_event now raw2 cal = none) := by
  constructor
  · rcases hst with ⟨rfl, rfl⟩ | ⟨rfl, rfl⟩
    · rcases hend with h | h | ⟨d, h⟩ <;>
        exact ⟨⟨eid, raw.summary.getD "No Title", raw.description.getD "",
          raw.location.getD "", sdt, sdt + HOUR, false, cal.summary,
          cal.backgroundColor, get_event_status now sdt (sdt + HOUR)⟩,
          by simp [process_event, hstart, h, hid], rfl, rfl, rfl⟩
    · rcases hend with h | h | ⟨d, h⟩ <;>
        exact ⟨⟨eid, raw.summary.getD "No Title", raw.description.getD "",
          raw.location.getD "", sdt, sdt + HOUR, true, cal.summary,
          cal.backgroundColor, get_event_status now sdt (sdt + HOUR)⟩,
          by simp [process_event, hstart, h, hid], rfl, rfl, rfl⟩
  · intro raw2 h2
    unfold process_event
    cases hs : raw2.start with
    | none => rfl
    | some os =>
      cases os with
      | none => rfl
      | some st2 => cases st2 <;> simp [h2]

/-- Witness for C7 amended: a timed start at 09:00 (32400 s) whose end
object carries no value yields end 10:00 (36000 s), and an all-day start
with a bare-date end also gets the one-hour default. -/
theorem default_end_one_hour_witness :
    (∃ ev : Event,
      process_event 0
        ⟨some "e", some "Morning", none, none,
          some (some (.timed 32400)), some none⟩ calTest = some ev ∧
      ev.start_datetime = 32400 ∧ ev.end_datetime = 36000 ∧
      ev.is_all_day = false) ∧
    (∃ ev : Event,
      process_event 0
        ⟨some "d", some "AllDay", none, none,
          some (some (.dateStr 0)), some (some (.dateStr 86400))⟩ calTest =
        some ev ∧
      ev.start_datetime = 0 ∧ ev.end_datetime = 0 + HOUR ∧
      ev.is_all_day = true) := by
  constructor
  · obtain ⟨⟨ev, h1, h2, h3, h4⟩, -⟩ :=
      default_end_one_hour 0 32400 false
        ⟨some "e", some "Morning", none, none,
          some (some (.timed 32400)), some none⟩
        calTest "e" (.timed 32400) rfl rfl (Or.inl ⟨rfl, rfl⟩) (Or.inl rfl)
    refine ⟨ev, h1, h2, ?_, h4⟩
    rw [h3]
    decide
  · obtain ⟨⟨ev, h1, h2, h3, h4⟩, -⟩ :=
      default_end_one_hour 0 0 true
        ⟨some "d", some "AllDay", none, none,
          some (some (.dateStr 0)), some (some (.dateStr 86400))⟩
        calTest "d" (.dateStr 0) rfl rfl (Or.inr ⟨rfl, rfl⟩)
        (Or.inr (Or.inr ⟨86400, rfl⟩))
    exact ⟨ev, h1, h2, h3, h4⟩

/-- C7 counterexample: a raw record with a timed 09:00 start and no `end`
field at all is discarded by `_process_event` (the `event['end']` lookup
raises `KeyError` into the handler), so normalization does not yield an
event with the defaulted end 10:00, contrary to the claim's example. -/
theorem no_end_key_discards : process_event 0 rawNoEnd calTest = none := rfl

end RpiCal

namespace RpiCal

/-- C2: while an alert is already showing, a newly arriving record leaves
the active alert showing and `current_notification` untouched, and is
appended to the FIFO backlog unless an equal-identity record is already
queued; a backlog-drain tick while an alert is showing changes nothing;
and a queued record becomes active exactly when a drain tick runs in the
idle state, which promotes the oldest backlog entry — and only then. -/
theorem scheduler_queue_behavior (now : Int) (s : UISched)
    (a : UINotification) (ev : Event) (t : String)
    (hshow : s.showing = some a) :
    ((ui_show_notification now ev t s).showing = some a ∧
     (ui_show_notification now ev t s).current = s.current ∧
     (ui_show_notification now ev t s).queue =
       (if s.queue.any (fun q => q.event.id == ev.id && q.ntype == t)
        then s.queue else s.queue ++ [⟨ev, t, now⟩])) ∧
    ui_process_queue s = s ∧
    (∀ (s2 : UISched) (n : UINotification) (rest : List UINotification),
      s2.showing = none → s2.queue = n :: rest →
      ui_process_queue s2 = ⟨some n, some n, rest⟩) := by
  have hsome : s.showing.isSome = true := by rw [hshow]; rfl
  refine ⟨?_, ?_, ?_⟩
  · unfold ui_show_notification
    rw [if_pos hsome]
    by_cases hq : s.queue.any (fun q => q.event.id == ev.id && q.ntype == t) = true
    · rw [if_pos hq, if_pos hq]
      exact ⟨hshow, rfl, rfl⟩
    · rw [if_neg hq, if_neg hq]
      exact ⟨hshow, rfl, rfl⟩
  · unfold ui_process_queue
    rw [if_neg (by rw [hshow]; simp)]
  · intro s2 n rest hs2 hq2
    unfold ui_process_queue
    rw [if_pos (by rw [hs2]; rfl), hq2]

/-- Witness for C2, the spec's two-record scenario: from idle, a first
record becomes active immediately; a second record arriving while the
first shows is queued, not displayed; a drain tick while showing changes
nothing; after dismissal of the first, a drain tick promotes the second,
and only then. -/
theorem scheduler_queue_behavior_witness :
    (ui_show_notification 0 evA1 "warning" ⟨none, none, []⟩).showing =
      some ⟨evA1, "warning", 0⟩ ∧
    (ui_show_notification 5 (evTTS 45) "start"
        (ui_show_notification 0 evA1 "warning" ⟨none, none, []⟩)).showing =
      some ⟨evA1, "warning", 0⟩ ∧
    (ui_show_notification 5 (evTTS 45) "start"
        (ui_show_notification 0 evA1 "warning" ⟨none, none, []⟩)).queue =
      [⟨evTTS 45, "start", 5⟩] ∧
    ui_process_queue (ui_show_notification 5 (evTTS 45) "start"
        (ui_show_notification 0 evA1 "warning" ⟨none, none, []⟩)) =
      ui_show_notification 5 (evTTS 45) "start"
        (ui_show_notification 0 evA1 "warning" ⟨none, none, []⟩) ∧
    ui_process_queue (ui_dismiss (ui_show_notification 5 (evTTS 45) "start"
        (ui_show_notification 0 evA1 "warning" ⟨none, none, []⟩))) =
      ⟨some ⟨evTTS 45, "start", 5⟩, some ⟨evTTS 45, "start", 5⟩, []⟩ := by
  have h := scheduler_queue_behavior 5
    (ui_show_notification 0 evA1 "warning" ⟨none, none, []⟩)
    ⟨evA1, "warning", 0⟩ (evTTS 45) "start" rfl
  have h2 := scheduler_queue_behavior 5
    (ui_show_notification 5 (evTTS 45) "start"
      (ui_show_notification 0 evA1 "warning" ⟨none, none, []⟩))
    ⟨evA1, "warning", 0⟩ (evTTS 45) "start" rfl
  exact ⟨rfl, h.1.1, by rw [h.1.2.2]; rfl, h2.2.1, h2.2.2 _ _ _ rfl rfl⟩

/-- The `cleared` flag is monotone over one scan-loop iteration. -/
theorem check_step_cleared_mono (now : Int) (s : SysState)
    (p : Event × String) (h : s.cleared = true) :
    (check_notification_step now s p).cleared = true := by
  unfold check_notification_step
  by_cases hk : notifKey p.1 p.2 ∈ s.cache
  · rw [if_pos hk]
    exact h
  · rw [if_neg hk]
    simp [h]

/-- The `cleared` flag is monotone over a scan loop. -/
theorem check_fold_cleared_mono (now : Int) (ps : List (Event × String))
    (s : SysState) (h : s.cleared = true) :
    (ps.foldl (check_notification_step now) s).cleared = true := by
  induction ps generalizing s with
  | nil => exact h
  | cons p ps ih => exact ih _ (check_step_cleared_mono now s p h)

/-- The `cleared` flag is monotone over one reactor activation. -/
theorem sys_step_cleared_mono (wm : Int) (s : SysState) (a : Act)
    (h : s.cleared = true) : (sys_step wm s a).cleared = true := by
  cases a with
  | scan now events =>
    exact check_fold_cleared_mono now
      (get_events_needing_notification wm now events) s h
  | drain => exact h
  | dismiss => exact h

/-- The `cleared` flag is monotone over a session trace. -/
theorem sys_run_cleared_mono (wm : Int) (acts : List Act) (s : SysState)
    (h : s.cleared = true) : (sys_run wm s acts).cleared = true := by
  induction acts generalizing s with
  | nil => exact h
  | cons a acts ih => exact ih _ (sys_step_cleared_mono wm s a h)

/-- If no clear happened by the end of a scan loop, none had happened at
its start. -/
theorem check_fold_cleared_false (now : Int) (ps : List (Event × String))
    (s : SysState)
    (h : (ps.foldl (check_notification_step now) s).cleared = false) :
    s.cleared = false := by
  by_contra hc
  have ht : s.cleared = true := by
    cases hx : s.cleared
    · exact absurd hx hc
    · rfl
  have hm := check_fold_cleared_mono now ps s ht
  rw [hm] at h
  exact Bool.noConfusion h

/-- One scan-loop iteration with no clear keeps a cached key cached and
does not fire it again. -/
theorem check_step_preserves (now : Int) (key : String) (s : SysState)
    (p : Event × String)
    (hnc : (check_notification_step now s p).cleared = false)
    (hin : key ∈ s.cache) :
    key ∈ (check_notification_step now s p).cache ∧
    (check_notification_step now s p).log.count key = s.log.count key := by
  by_cases hk : notifKey p.1 p.2 ∈ s.cache
  · unfold check_notification_step
    rw [if_pos hk]
    exact ⟨hin, rfl⟩
  · have hne : notifKey p.1 p.2 ≠ key := fun h => hk (h ▸ hin)
    unfold check_notification_step at hnc ⊢
    rw [if_neg hk] at hnc ⊢
    simp only [cleanup_old_notifications] at hnc ⊢
    by_cases hlen : 100 < (s.cache ++ [notifKey p.1 p.2]).length
    · exfalso
      rw [if_pos hlen] at hnc
      simp at hnc
    · rw [if_neg hlen] at hnc ⊢
      constructor
      · show key ∈ s.cache ++ [notifKey p.1 p.2]
        exact List.mem_append.mpr (Or.inl hin)
      · show (s.log ++ [notifKey p.1 p.2]).count key = s.log.count key
        rw [List.count_append]
        have h0 : ([notifKey p.1 p.2].count key) = 0 :=
          List.count_eq_zero.mpr
            (fun hmem => Ne.symm hne (List.mem_singleton.mp hmem))
        rw [h0, Nat.add_zero]

/-- A scan with no clear keeps a cached key cached and never fires it. -/
theorem check_fold_preserves (now : Int) (key : String)
    (ps : List (Event × String)) (s : SysState)
    (hnc : (ps.foldl (check_notification_step now) s).cleared = false)
    (hin : key ∈ s.cache) :
    key ∈ (ps.foldl (check_notification_step now) s).cache ∧
    (ps.foldl (check_notification_step now) s).log.count key =
      s.log.count key := by
  induction ps generalizing s with
  | nil => exact ⟨hin, rfl⟩
  | cons p ps ih =>
    have hstep : (check_notification_step now s p).cleared = false :=
      check_fold_cleared_false now ps _ hnc
    obtain ⟨h1, h2⟩ := check_step_preserves now key s p hstep hin
    obtain ⟨h3, h4⟩ := ih _ hnc h1
    exact ⟨h3, h4.trans h2⟩

/-- One reactor activation with no clear keeps a cached key cached and
never fires it. -/
theorem sys_step_preserves (wm : Int) (key : String) (s : SysState)
    (a : Act) (hnc : (sys_step wm s a).cleared = false)
    (hin : key ∈ s.cache) :
    key ∈ (sys_step wm s a).cache ∧
    (sys_step wm s a).log.count key = s.log.count key := by
  cases a with
  | scan now events =>
    exact check_fold_preserves now key
      (get_events_needing_notification wm now events) s hnc hin
  | drain => exact ⟨hin, rfl⟩
  | dismiss => exact ⟨hin, rfl⟩

/-- C5 amended: within a session, a (eventId, kind) pair present in the
DedupCache is silently skipped at every subsequent scan and never
re-fires, AS LONG AS the cache is never wholesale-cleared by the
100-entry ceiling policy: across any trace whose final state records no
clear, the pair stays cached and the count of its firings in the session
log does not grow.  (After a ceiling-triggered clear the pair can
re-fire; see the counterexample.) -/
theorem dedup_pair_never_refires (wm : Int) (acts : List Act) (s : SysState)
    (key : String) (hin : key ∈ s.cache)
    (hnc : (sys_run wm s acts).cleared = false) :
    key ∈ (sys_run wm s acts).cache ∧
    (sys_run wm s acts).log.count key = s.log.count key := by
  induction acts generalizing s with
  | nil => exact ⟨hin, rfl⟩
  | cons a acts ih =>
    have hnc2 : (sys_run wm (sys_step wm s a) acts).cleared = false := hnc
    have hstep : (sys_step wm s a).cleared = false := by
      by_contra hc
      have ht : (sys_step wm s a).cleared = true := by
        cases hx : (sys_step wm s a).cleared
        · exact absurd hx hc
        · rfl
      have hm := sys_run_cleared_mono wm acts (sys_step wm s a) ht
      rw [hm] at hnc2
      exact Bool.noConfusion hnc2
    obtain ⟨h1, h2⟩ := sys_step_preserves wm key s a hstep hin
    obtain ⟨h3, h4⟩ := ih (sys_step wm s a) h1 hnc2
    exact ⟨h3, h4.trans h2⟩

/-- Witness for C5 amended, the spec's 45-second scenario: the event that
fired start when starting in 45 s has its key in the cache, and a
re-scan 10 seconds later (no clear occurring) does not fire it again. -/
theorem dedup_pair_never_refires_witness :
    notifKey evA1 "start" ∈ (sys_run 10 sys_init [.scan 1000 [evA1]]).cache ∧
    (sys_run 10 (sys_run 10 sys_init [.scan 1000 [evA1]])
        [.scan 1010 [evA1]]).log.count (notifKey evA1 "start") =
      (sys_run 10 sys_init [.scan 1000 [evA1]]).log.count
        (notifKey evA1 "start") :=
  ⟨by decide,
   (dedup_pair_never_refires 10 [.scan 1010 [evA1]]
      (sys_run 10 sys_init [.scan 1000 [evA1]]) (notifKey evA1 "start")
      (by decide) (by decide)).2⟩

set_option maxRecDepth 40000 in
/-- C5 counterexample: in the concrete session trace `refireTrace`, the
pair (a, start) fires at the first scan and enters the DedupCache, yet
fires AGAIN at the final scan — it appears twice in the session log —
because 100 other pairs pushed the cache past its 100-entry ceiling and
`_cleanup_old_notifications` wholesale-cleared it.  The pair does
re-fire within the session. -/
theorem dedup_refires_after_clear :
    (sys_run 10 sys_init [.scan 1000 [evA1]]).cache =
      [notifKey evA1 "start"] ∧
    (sys_run 10 sys_init refireTrace).log.count (notifKey evA1 "start") =
      2 ∧
    (sys_run 10 sys_init refireTrace).cleared = true := by
  refine ⟨by decide, by decide, by decide⟩

end RpiCal

namespace RpiCal

/-- The enqueue path preserves pairwise-distinct backlog identities: a
record is appended only after the queue-membership identity check. -/
theorem ui_show_preserves_distinct (now : Int) (ev : Event) (t : String)
    (s : UISched) (h : QueueDistinct s) :
    QueueDistinct (ui_show_notification now ev t s) := by
  unfold ui_show_notification QueueDistinct at *
  by_cases hs : s.showing.isSome = true
  · rw [if_pos hs]
    by_cases hq : s.queue.any
        (fun q => q.event.id == ev.id && q.ntype == t) = true
    · rw [if_pos hq]
      exact h
    · rw [if_neg hq]
      show List.Pairwise _ (s.queue ++ [⟨ev, t, now⟩])
      rw [List.pairwise_append]
      refine ⟨h, by simp, ?_⟩
      intro a ha b hb
      rw [List.mem_singleton] at hb
      subst hb
      rintro ⟨hid, hty⟩
      have hf : s.queue.any
          (fun q => q.event.id == ev.id && q.ntype == t) = false :=
        Bool.eq_false_iff.mpr hq
      rw [List.any_eq_false] at hf
      have hfa := hf a ha
      simp [hid, hty] at hfa
  · rw [if_neg hs]
    exact h

/-- The drain path preserves pairwise-distinct backlog identities. -/
theorem ui_process_preserves_distinct (s : UISched)
    (h : QueueDistinct s) : QueueDistinct (ui_process_queue s) := by
  unfold ui_process_queue QueueDistinct at *
  by_cases hs : s.showing.isNone = true
  · rw [if_pos hs]
    cases hq : s.queue with
    | nil => exact h
    | cons n rest =>
      rw [hq] at h
      exact h.of_cons
  · rw [if_neg hs]
    exact h

/-- One scan-loop iteration preserves pairwise-distinct backlog
identities. -/
theorem check_step_preserves_distinct (now : Int) (s : SysState)
    (p : Event × String) (h : QueueDistinct s.sched) :
    QueueDistinct (check_notification_step now s p).sched := by
  unfold check_notification_step
  by_cases hk : notifKey p.1 p.2 ∈ s.cache
  · rw [if_pos hk]
    exact h
  · rw [if_neg hk]
    exact ui_show_preserves_distinct now p.1 p.2 s.sched h

/-- A scan preserves pairwise-distinct backlog identities. -/
theorem check_fold_preserves_distinct (now : Int)
    (ps : List (Event × String)) (s : SysState)
    (h : QueueDistinct s.sched) :
    QueueDistinct (ps.foldl (check_notification_step now) s).sched := by
  induction ps generalizing s with
  | nil => exact h
  | cons p ps ih => exact ih _ (check_step_preserves_distinct now s p h)

/-- One reactor activation preserves pairwise-distinct backlog
identities. -/
theorem sys_step_preserves_distinct (wm : Int) (s : SysState) (a : Act)
    (h : QueueDistinct s.sched) : QueueDistinct (sys_step wm s a).sched := by
  cases a with
  | scan now events =>
    exact check_fold_preserves_distinct now
      (get_events_needing_notification wm now events) s h
  | drain => exact ui_process_preserves_distinct s.sched h
  | dismiss => exact h

/-- A session trace preserves pairwise-distinct backlog identities. -/
theorem sys_run_preserves_distinct (wm : Int) (acts : List Act)
    (s : SysState) (h : QueueDistinct s.sched) :
    QueueDistinct (sys_run wm s acts).sched := by
  induction acts generalizing s with
  | nil => exact h
  | cons a acts ih => exact ih _ (sys_step_preserves_distinct wm s a h)

/-- C8 amended: at every state the scheduler reaches from the initial
session state, the backlog never holds two records with the same
(eventId, kind) pair — the identity check happens against the queue at
enqueue time — and the DedupCache is not re-checked at dequeue: a drain
tick in the idle state promotes the oldest backlog record to active
whatever the cache contains, leaving the cache and the firing log
untouched.  (The backlog CAN come to hold a pair equal to the active
record's, and a pair present in the DedupCache, since the enqueue check
inspects only the queue; see the counterexample.) -/
theorem backlog_no_duplicate_pairs (wm : Int) (acts : List Act) :
    QueueDistinct (sys_run wm sys_init acts).sched ∧
    (∀ (s : SysState) (n : UINotification) (rest : List UINotification),
      s.sched.showing = none → s.sched.queue = n :: rest →
      (sys_step wm s .drain).sched.showing = some n ∧
      (sys_step wm s .drain).sched.queue = rest ∧
      (sys_step wm s .drain).cache = s.cache ∧
      (sys_step wm s .drain).log = s.log) := by
  constructor
  · exact sys_run_preserves_distinct wm acts sys_init List.Pairwise.nil
  · intro s n rest hs hq
    have hnone : s.sched.showing.isNone = true := by rw [hs]; rfl
    show ((ui_process_queue s.sched).showing = some n ∧
      (ui_process_queue s.sched).queue = rest ∧ s.cache = s.cache ∧
      s.log = s.log)
    unfold ui_process_queue
    rw [if_pos hnone, hq]
    exact ⟨rfl, rfl, rfl, rfl⟩

/-- Witness for C8 amended: after a one-scan trace the backlog identities
are pairwise distinct, and a drain tick in an idle state promotes the
head of the backlog even though its pair's key already sits in the
DedupCache (no re-check at dequeue). -/
theorem backlog_no_duplicate_pairs_witness :
    QueueDistinct (sys_run 10 sys_init [.scan 1000 [evA1]]).sched ∧
    (sys_step 10 ⟨[notifKey evA1 "start"],
        ⟨none, none, [⟨evA1, "start", 0⟩]⟩, false,
        [notifKey evA1 "start"]⟩ .drain).sched.showing =
      some ⟨evA1, "start", 0⟩ :=
  ⟨(backlog_no_duplicate_pairs 10 [.scan 1000 [evA1]]).1,
   ((backlog_no_duplicate_pairs 10 []).2
      ⟨[notifKey evA1 "start"], ⟨none, none, [⟨evA1, "start", 0⟩]⟩, false,
        [notifKey evA1 "start"]⟩
      ⟨evA1, "start", 0⟩ [] rfl rfl).1⟩

set_option maxRecDepth 40000 in
/-- C8 counterexample: the state reached by the concrete session trace
`refireTrace` has an active record with pair (a, start) while the backlog
also holds a record with pair (a, start) — whose key moreover sits in
the DedupCache — because `show_notification` checks the new record only
against the queue, never against the active record, and a
ceiling-triggered cache clear let the pair fire a second time while its
first alert was still showing. -/
theorem backlog_duplicates_active_pair :
    ((sys_run 10 sys_init refireTrace).sched.showing.map
        (fun n => (n.event.id, n.ntype))) = some ("a", "start") ∧
    (sys_run 10 sys_init refireTrace).sched.queue.any
      (fun q => q.event.id == "a" && q.ntype == "start") = true ∧
    notifKey evA2 "start" ∈ (sys_run 10 sys_init refireTrace).cache := by
  refine ⟨by decide, by decide, by decide⟩

end RpiCal
